import Mathlib

/-!
# GigUp marketplace workflow: shallow embedding

Shallow embedding of the workflow handlers of the GigUp back end
(`src/client/client.js`, `src/freelancer/freelancer.js`, the freelancer
route file holding `request-completion`, the client auth file holding
`login`, and the Prisma schema).  Entities are records over `String` ids,
tables are lists, and each HTTP handler becomes a function from a storage
state to `Except ApiError` of the new state.  A Prisma `$transaction`
block is one atomic commit; `await prisma.x` writes outside a transaction
are separate commits, which we model with explicit commit lists so that
mid-failure states are expressible.
-/

namespace GigUp

/-- `ProjectStatus` enum of the Prisma schema. -/
inductive ProjectStatus where
  | ADMIN_VERIFICATION
  | OPEN
  | ASSIGNED
  | PENDING_COMPLETION
  | COMPLETED
  | REJECTED_COMPLETION
  | CANCELLED
deriving DecidableEq, Repr

/-- `ApplicationStatus` enum of the Prisma schema. -/
inductive ApplicationStatus where
  | PENDING
  | APPROVED
  | REJECTED
deriving DecidableEq, Repr

/-- `RaterType` enum of the Prisma schema. -/
inductive RaterType where
  | CLIENT_TO_FREELANCER
  | FREELANCER_TO_CLIENT
deriving DecidableEq, Repr

/-- `Freelancer` row (fields relevant to the workflow engine).
`ratings` stores the running average in hundredths: the handlers always
store `parseFloat(avg.toFixed(2))`, a decimal with exactly two fractional
digits, which the value `ratings / 100` represents losslessly (so stored
`4.00` is `400`). -/
structure Freelancer where
  id : String
  userId : String
  projectsCompleted : Nat
  ratings : Nat
  availability : Bool
deriving DecidableEq, Repr

/-- `Client` row (fields relevant to the workflow engine). -/
structure Client where
  id : String
  userId : String
  projectsPosted : Nat
deriving DecidableEq, Repr

/-- `Project` row (fields relevant to the workflow engine).
`updatedAt` abstracts the `@updatedAt` timestamp as a `Nat`. -/
structure Project where
  id : String
  title : String
  clientId : String
  status : ProjectStatus
  assignedTo : Option String
  rejectedReason : Option String
  updatedAt : Nat
deriving DecidableEq, Repr

/-- `Application` row. -/
structure Application where
  id : String
  projectId : String
  freelancerId : String
  proposal : Option String
  status : ApplicationStatus
deriving DecidableEq, Repr

/-- `Rating` row: `rating` is the 1-5 star integer. -/
structure Rating where
  id : String
  projectId : String
  raterId : String
  ratedId : String
  raterType : RaterType
  rating : Nat
deriving DecidableEq, Repr

/-- The storage state: one list per table. -/
structure GigState where
  freelancers : List Freelancer
  clients : List Client
  projects : List Project
  applications : List Application
  ratings : List Rating
deriving DecidableEq, Repr

/-- An error response: HTTP status plus the handler's message string. -/
structure ApiError where
  status : Nat
  message : String
deriving DecidableEq, Repr

deriving instance DecidableEq for Except

/-- `prisma.freelancer.findUnique({ where: { userId } })`. -/
def findFreelancerByUserId (s : GigState) (userId : String) : Option Freelancer :=
  s.freelancers.find? (fun f => f.userId = userId)

/-- `prisma.freelancer.findUnique({ where: { id } })`. -/
def findFreelancerById (s : GigState) (id : String) : Option Freelancer :=
  s.freelancers.find? (fun f => f.id = id)

/-- `prisma.client.findUnique({ where: { userId } })`. -/
def findClientByUserId (s : GigState) (userId : String) : Option Client :=
  s.clients.find? (fun c => c.userId = userId)

/-- `prisma.project.findUnique({ where: { id } })`. -/
def findProjectById (s : GigState) (id : String) : Option Project :=
  s.projects.find? (fun p => p.id = id)

/-- `prisma.project.findFirst({ where: { id, clientId } })`. -/
def findProjectOfClient (s : GigState) (id clientId : String) : Option Project :=
  s.projects.find? (fun p => p.id = id ∧ p.clientId = clientId)

/-- `prisma.application.findFirst({ where: { id, projectId } })`. -/
def findApplicationInProject (s : GigState) (id projectId : String) : Option Application :=
  s.applications.find? (fun a => a.id = id ∧ a.projectId = projectId)

/-- `prisma.application.findUnique` on the `@@unique([projectId, freelancerId])` key. -/
def findApplicationByPair (s : GigState) (projectId freelancerId : String) : Option Application :=
  s.applications.find? (fun a => a.projectId = projectId ∧ a.freelancerId = freelancerId)

/-- `prisma.rating.findUnique` on the `@@unique([projectId, raterId, ratedId])` key. -/
def findRatingByTriple (s : GigState) (projectId raterId ratedId : String) : Option Rating :=
  s.ratings.find? (fun r => r.projectId = projectId ∧ r.raterId = raterId ∧ r.ratedId = ratedId)

/-!
## `POST /api/freelancer/projects/:projectId/apply`
(`src/freelancer/freelancer.js`, handler at lines 304-434.)
Checks run in the handler's order: freelancer existence, availability,
project existence, `status === 'OPEN'`, `assignedTo` unset, duplicate
application; then `application.create` (status defaults to `PENDING`).
The create also enforces the database's unique constraints on `id` and
on `(projectId, freelancerId)`.
-/

def errFreelancerNotFound : ApiError := ⟨404, "Freelancer not found"⟩
def errMustBeAvailable : ApiError := ⟨400, "You must be available to apply for projects"⟩
def errProjectNotFound : ApiError := ⟨404, "Project not found"⟩
def errProjectNotOpenForApplications : ApiError :=
  ⟨400, "Project is not available for applications"⟩
def errProjectAlreadyAssigned : ApiError := ⟨400, "Project is already assigned"⟩
def errAlreadyApplied : ApiError := ⟨400, "You have already applied for this project"⟩
def errUniqueViolation : ApiError := ⟨500, "Internal server error"⟩

/-- `applyForProject s userId projectId proposal newAppId`: the apply handler.
`newAppId` stands for the fresh cuid the database generates. -/
def applyForProject (s : GigState) (userId projectId : String)
    (proposal : Option String) (newAppId : String) : Except ApiError GigState :=
  match findFreelancerByUserId s userId with
  | none => .error errFreelancerNotFound
  | some freelancer =>
    if !freelancer.availability then .error errMustBeAvailable
    else match findProjectById s projectId with
      | none => .error errProjectNotFound
      | some project =>
        if project.status ≠ ProjectStatus.OPEN then .error errProjectNotOpenForApplications
        else if project.assignedTo.isSome then .error errProjectAlreadyAssigned
        else match findApplicationByPair s projectId freelancer.id with
          | some _ => .error errAlreadyApplied
          | none =>
            if s.applications.any (fun a => a.id = newAppId) then .error errUniqueViolation
            else
              let newApp : Application :=
                ⟨newAppId, projectId, freelancer.id, proposal, ApplicationStatus.PENDING⟩
              .ok { s with applications := s.applications ++ [newApp] }

/-!
## `PUT /api/client/projects/:projectId/applications/:applicationId/approve`
(`src/client/client.js`, handler at lines 484-615.)
Checks: client existence, project belongs to client, `status === 'OPEN'`,
application exists on the project, application is `PENDING`.  Then one
`prisma.$transaction`: approve the chosen application, set the project's
`assignedTo`/`status`, reject every other `PENDING` application of the
project.  The `checkClientActive` middleware (not part of the workflow
logic) only gates on the user's `isActive` flag and is abstracted away;
the handler re-reads the client row inline, which is what we model.
-/

def errClientNotFound : ApiError := ⟨404, "Client not found"⟩
def errProjectNotYours : ApiError :=
  ⟨404, "Project not found or you do not have permission to modify it"⟩
def errProjectNotOpenForAssignment : ApiError :=
  ⟨400, "Project is not available for assignment"⟩
def errApplicationNotFound : ApiError := ⟨404, "Application not found"⟩
def errApplicationProcessed : ApiError := ⟨400, "Application has already been processed"⟩
def errInternal : ApiError := ⟨500, "Internal server error"⟩

/-- The body of the approve `$transaction`: the three writes applied together. -/
def approveApplicationTx (projectId applicationId freelancerId : String) (now : Nat)
    (s : GigState) : GigState :=
  { s with
    applications := s.applications.map (fun a =>
      if a.id = applicationId then { a with status := ApplicationStatus.APPROVED }
      else if a.projectId = projectId ∧ a.id ≠ applicationId ∧
          a.status = ApplicationStatus.PENDING then
        { a with status := ApplicationStatus.REJECTED }
      else a),
    projects := s.projects.map (fun p =>
      if p.id = projectId then
        { p with assignedTo := some freelancerId, status := ProjectStatus.ASSIGNED,
                 updatedAt := now }
      else p) }

/-- The checks the approve handler runs before its transaction. -/
def approveApplicationChecks (s : GigState) (userId projectId applicationId : String) :
    Except ApiError Application :=
  match findClientByUserId s userId with
  | none => .error errClientNotFound
  | some client =>
    match findProjectOfClient s projectId client.id with
    | none => .error errProjectNotYours
    | some project =>
      if project.status ≠ ProjectStatus.OPEN then .error errProjectNotOpenForAssignment
      else match findApplicationInProject s applicationId projectId with
        | none => .error errApplicationNotFound
        | some application =>
          if application.status ≠ ApplicationStatus.PENDING then .error errApplicationProcessed
          else .ok application

/-- `approveApplication s userId projectId applicationId now`: the approve handler. -/
def approveApplication (s : GigState) (userId projectId applicationId : String)
    (now : Nat) : Except ApiError GigState :=
  match approveApplicationChecks s userId projectId applicationId with
  | .error e => .error e
  | .ok application =>
    .ok (approveApplicationTx projectId applicationId application.freelancerId now s)

/-- The approve handler's committed write phase as a list of atomic commits:
the whole `$transaction` is a single commit. -/
def approveApplicationCommits (s : GigState) (userId projectId applicationId : String)
    (now : Nat) : List (GigState → GigState) :=
  match approveApplicationChecks s userId projectId applicationId with
  | .error _ => []
  | .ok application =>
    [approveApplicationTx projectId applicationId application.freelancerId now]

/-!
## `PUT /api/client/projects/:projectId/assign/:freelancerId`
(`src/client/client.js`, handler at lines 1633-1739.)
Checks: client existence, project belongs to client, `status === 'OPEN'`,
freelancer existence — the handler performs NO availability check — then
one `project.update` setting `assignedTo` and `status: 'ASSIGNED'`.
-/

/-- `assignProject s userId projectId freelancerId now`: the direct-assign handler. -/
def assignProject (s : GigState) (userId projectId freelancerId : String)
    (now : Nat) : Except ApiError GigState :=
  match findClientByUserId s userId with
  | none => .error errClientNotFound
  | some client =>
    match findProjectOfClient s projectId client.id with
    | none => .error errProjectNotYours
    | some project =>
      if project.status ≠ ProjectStatus.OPEN then .error errProjectNotOpenForAssignment
      else match findFreelancerById s freelancerId with
        | none => .error errFreelancerNotFound
        | some _ =>
          .ok { s with projects := s.projects.map (fun p =>
            if p.id = projectId then
              { p with assignedTo := some freelancerId, status := ProjectStatus.ASSIGNED,
                       updatedAt := now }
            else p) }

/-!
## `PUT /api/freelancer/projects/:projectId/request-completion`
(freelancer route file, handler at lines 547-622.)
Checks: freelancer existence, then `findFirst` of the project with
`id`, `assignedTo: freelancer.id` and `status: 'ASSIGNED'`; then one
`project.update` to `PENDING_COMPLETION`.
-/

def errProjectNotAssignedToYou : ApiError :=
  ⟨404, "Project not found, not assigned to you, or not in correct status"⟩

/-- `requestCompletion s userId projectId now`: the request-completion handler. -/
def requestCompletion (s : GigState) (userId projectId : String)
    (now : Nat) : Except ApiError GigState :=
  match findFreelancerByUserId s userId with
  | none => .error errFreelancerNotFound
  | some freelancer =>
    match s.projects.find? (fun p => p.id = projectId ∧
        p.assignedTo = some freelancer.id ∧ p.status = ProjectStatus.ASSIGNED) with
    | none => .error errProjectNotAssignedToYou
    | some _ =>
      .ok { s with projects := s.projects.map (fun p =>
        if p.id = projectId then
          { p with status := ProjectStatus.PENDING_COMPLETION, updatedAt := now }
        else p) }

/-!
## `PUT /api/client/projects/:projectId/approve-completion`
(`src/client/client.js`, handler at lines 897-976.)
Checks: client existence, `findFirst` of the project with `id`, `clientId`
and `status: 'PENDING_COMPLETION'`.  Then one `prisma.$transaction`:
set the project `COMPLETED` and increment `projectsCompleted` of the
freelancer whose `id` equals the project's `assignedTo`.  If `assignedTo`
is null or dangling the inner `freelancer.update` throws, the transaction
rolls back, and the handler answers 500 with no state change.
-/

def errProjectNotPendingCompletion : ApiError :=
  ⟨404, "Project not found or not pending completion"⟩

/-- The checks of the approve-completion handler, together with the
commit-or-rollback condition of its transaction; returns the assigned
freelancer's id on success. -/
def approveCompletionChecks (s : GigState) (userId projectId : String) :
    Except ApiError String :=
  match findClientByUserId s userId with
  | none => .error errClientNotFound
  | some client =>
    match s.projects.find? (fun p => p.id = projectId ∧ p.clientId = client.id ∧
        p.status = ProjectStatus.PENDING_COMPLETION) with
    | none => .error errProjectNotPendingCompletion
    | some project =>
      match project.assignedTo with
      | none => .error errInternal
      | some freelancerId =>
        match findFreelancerById s freelancerId with
        | none => .error errInternal
        | some _ => .ok freelancerId

/-- The body of the approve-completion `$transaction`: both writes together. -/
def approveCompletionTx (projectId freelancerId : String) (now : Nat)
    (s : GigState) : GigState :=
  { s with
    projects := s.projects.map (fun p =>
      if p.id = projectId then
        { p with status := ProjectStatus.COMPLETED, updatedAt := now }
      else p),
    freelancers := s.freelancers.map (fun f =>
      if f.id = freelancerId then
        { f with projectsCompleted := f.projectsCompleted + 1 }
      else f) }

/-- `approveCompletion s userId projectId now`: the approve-completion handler. -/
def approveCompletion (s : GigState) (userId projectId : String)
    (now : Nat) : Except ApiError GigState :=
  match approveCompletionChecks s userId projectId with
  | .error e => .error e
  | .ok freelancerId => .ok (approveCompletionTx projectId freelancerId now s)

/-- The approve-completion handler's committed write phase: the whole
`$transaction` is a single commit (empty when the handler fails, since a
failing transaction rolls back). -/
def approveCompletionCommits (s : GigState) (userId projectId : String)
    (now : Nat) : List (GigState → GigState) :=
  match approveCompletionChecks s userId projectId with
  | .error _ => []
  | .ok freelancerId => [approveCompletionTx projectId freelancerId now]

/-!
## `PUT /api/client/projects/:projectId/reject-completion`
(`src/client/client.js`, handler at lines 979-1049.)
Checks: non-empty `rejectionReason`, client existence, `findFirst` of the
project with `id`, `clientId`, `status: 'PENDING_COMPLETION'`.  Then one
`project.update` setting only `status: 'ASSIGNED'` and `updatedAt`; the
reason is echoed in the JSON response but never written to storage (the
schema's `Project.rejectedReason` column is untouched).  The result pairs
the new state with the echoed reason.
-/

def errReasonRequired : ApiError := ⟨400, "Rejection reason is required"⟩

/-- `rejectCompletion s userId projectId reason now`: the reject-completion handler. -/
def rejectCompletion (s : GigState) (userId projectId reason : String)
    (now : Nat) : Except ApiError (GigState × String) :=
  if reason = "" then .error errReasonRequired
  else match findClientByUserId s userId with
  | none => .error errClientNotFound
  | some client =>
    match s.projects.find? (fun p => p.id = projectId ∧ p.clientId = client.id ∧
        p.status = ProjectStatus.PENDING_COMPLETION) with
    | none => .error errProjectNotPendingCompletion
    | some _ =>
      .ok ({ s with projects := s.projects.map (fun p =>
        if p.id = projectId then
          { p with status := ProjectStatus.ASSIGNED, updatedAt := now }
        else p) }, reason)

/-!
## Rating aggregation
(`src/client/client.js`, `rate-freelancer` at lines 1052-1180 and
`PUT /ratings/:ratingId` at lines 1313-1403.)
Both handlers recompute, inside the same `$transaction` as the rating
write, the unweighted mean over every `CLIENT_TO_FREELANCER` rating row
whose `ratedId` is the rated freelancer's user id, and store
`parseFloat(mean.toFixed(2))` — the mean rounded to two decimal places —
into the freelancer's `ratings` column.
-/

/-- `parseFloat(x.toFixed(2))` for the non-negative averages that arise here:
round to the nearest multiple of 1/100, halves away from zero.  Used in
specification statements; the handlers compute its hundredths numerator
with `roundMean100`. -/
def round2 (q : ℚ) : ℚ := (⌊q * 100 + 1 / 2⌋ : ℚ) / 100

/-- The `findMany` of the recomputation: all ratings of `ratedId` in the
given direction. -/
def ratingsOf (rs : List Rating) (ratedId : String) (rt : RaterType) : List Rating :=
  rs.filter (fun r => r.ratedId = ratedId ∧ r.raterType = rt)

/-- `reduce((sum, r) => sum + r.rating, 0)` of the handler. -/
def sumRatings (l : List Rating) : Nat := (l.map (fun r => r.rating)).sum

/-- `reduce((sum, r) => sum + r.rating, 0) / length` of the handler, as the
exact rational mean. -/
def ratingAvg (l : List Rating) : ℚ :=
  (sumRatings l : ℚ) / l.length

/-- The hundredths numerator of `round2 (sum / count)`:
`(200 * sum + count) / (2 * count)` in natural division equals
`⌊100 * (sum / count) + 1/2⌋` for `count > 0` (see `roundMean100_eq`). -/
def roundMean100 (sum count : Nat) : Nat := (200 * sum + count) / (2 * count)

def errRatingRange : ApiError := ⟨400, "Rating must be between 1 and 5 stars"⟩
def errProjectNotCompletedOrNotYours : ApiError :=
  ⟨404, "Project not found, not completed, or does not belong to you"⟩
def errNoFreelancerAssigned : ApiError := ⟨400, "No freelancer assigned to this project"⟩
def errAlreadyRated : ApiError :=
  ⟨400, "You have already rated this freelancer for this project"⟩

/-- The checks the rate-freelancer handler runs before its transaction;
returns the COMPLETED project and its assigned freelancer.  A clash on
the generated rating id would make the `create` throw inside the
transaction (full rollback), so it is also a pre-commit failure. -/
def rateFreelancerChecks (s : GigState) (userId projectId : String) (rating : Nat)
    (newRatingId : String) : Except ApiError (Project × Freelancer) :=
  if rating < 1 ∨ rating > 5 then .error errRatingRange
  else match findClientByUserId s userId with
  | none => .error errClientNotFound
  | some client =>
    match s.projects.find? (fun p => p.id = projectId ∧ p.clientId = client.id ∧
        p.status = ProjectStatus.COMPLETED) with
    | none => .error errProjectNotCompletedOrNotYours
    | some project =>
      match project.assignedTo.bind (findFreelancerById s) with
      | none => .error errNoFreelancerAssigned
      | some freelancer =>
        match findRatingByTriple s projectId userId freelancer.userId with
        | some _ => .error errAlreadyRated
        | none =>
          if s.ratings.any (fun r => r.id = newRatingId) then .error errUniqueViolation
          else .ok (project, freelancer)

/-- The body of the rate-freelancer `$transaction`: insert the rating row,
recompute the mean over all `CLIENT_TO_FREELANCER` ratings of `ratedId`,
and store it (rounded to 2 decimals) on the freelancer row whose id is
the project's `assignedTo`. -/
def rateFreelancerTx (projectId raterId ratedId : String) (assignedTo : Option String)
    (rating : Nat) (newRatingId : String) (s : GigState) : GigState :=
  let newRow : Rating := ⟨newRatingId, projectId, raterId, ratedId,
    RaterType.CLIENT_TO_FREELANCER, rating⟩
  let ratingsAfter := s.ratings ++ [newRow]
  let rows := ratingsOf ratingsAfter ratedId RaterType.CLIENT_TO_FREELANCER
  { s with
    ratings := ratingsAfter,
    freelancers := s.freelancers.map (fun f =>
      if some f.id = assignedTo then
        { f with ratings := roundMean100 (sumRatings rows) rows.length }
      else f) }

/-- `rateFreelancer s userId projectId rating review newRatingId`:
the rate-freelancer handler. -/
def rateFreelancer (s : GigState) (userId projectId : String) (rating : Nat)
    (_review : Option String) (newRatingId : String) : Except ApiError GigState :=
  match rateFreelancerChecks s userId projectId rating newRatingId with
  | .error e => .error e
  | .ok (project, freelancer) =>
    .ok (rateFreelancerTx projectId userId freelancer.userId project.assignedTo
      rating newRatingId s)

/-- The rate-freelancer handler's committed write phase: the whole
`$transaction` is a single commit. -/
def rateFreelancerCommits (s : GigState) (userId projectId : String) (rating : Nat)
    (newRatingId : String) : List (GigState → GigState) :=
  match rateFreelancerChecks s userId projectId rating newRatingId with
  | .error _ => []
  | .ok (project, freelancer) =>
    [rateFreelancerTx projectId userId freelancer.userId project.assignedTo
      rating newRatingId]

def errRatingNotYours : ApiError :=
  ⟨404, "Rating not found or you do not have permission to update it"⟩

/-- The checks the rating-update handler runs before its transaction.
`newRating = some 0` behaves like `none` (`rating && ...` is falsy on 0 in
the source); the review text is not modelled.  The handler dereferences
`existingRating.project.freelancer`, so a missing project or freelancer
relation throws and surfaces as a 500 with no write. -/
def updateRatingChecks (s : GigState) (userId ratingId : String)
    (newRating : Option Nat) : Except ApiError (Rating × Project × Freelancer) :=
  if (match newRating with
      | some r => decide (r ≠ 0 ∧ (r < 1 ∨ r > 5))
      | none => false) then .error errRatingRange
  else match s.ratings.find? (fun r => r.id = ratingId ∧ r.raterId = userId ∧
      r.raterType = RaterType.CLIENT_TO_FREELANCER) with
  | none => .error errRatingNotYours
  | some existingRating =>
    match findProjectById s existingRating.projectId with
    | none => .error errInternal
    | some project =>
      match project.assignedTo.bind (findFreelancerById s) with
      | none => .error errInternal
      | some freelancer => .ok (existingRating, project, freelancer)

/-- The body of the rating-update `$transaction`: update the row, recompute
the mean over all `CLIENT_TO_FREELANCER` ratings of `ratedId`, and store
it (rounded to 2 decimals) on the freelancer row whose id is the
project's `assignedTo`. -/
def updateRatingTx (ratingId : String) (newRating : Option Nat) (ratedId : String)
    (assignedTo : Option String) (s : GigState) : GigState :=
  let ratingsAfter := s.ratings.map (fun r =>
    if r.id = ratingId then
      { r with rating := match newRating with
          | some v => if v = 0 then r.rating else v
          | none => r.rating }
    else r)
  let rows := ratingsOf ratingsAfter ratedId RaterType.CLIENT_TO_FREELANCER
  { s with
    ratings := ratingsAfter,
    freelancers := s.freelancers.map (fun f =>
      if some f.id = assignedTo then
        { f with ratings := roundMean100 (sumRatings rows) rows.length }
      else f) }

/-- `updateRating s userId ratingId newRating`: the rating-update handler. -/
def updateRating (s : GigState) (userId ratingId : String)
    (newRating : Option Nat) : Except ApiError GigState :=
  match updateRatingChecks s userId ratingId newRating with
  | .error e => .error e
  | .ok (_, project, freelancer) =>
    .ok (updateRatingTx ratingId newRating freelancer.userId project.assignedTo s)

/-- The rating-update handler's committed write phase: the whole
`$transaction` is a single commit. -/
def updateRatingCommits (s : GigState) (userId ratingId : String)
    (newRating : Option Nat) : List (GigState → GigState) :=
  match updateRatingChecks s userId ratingId newRating with
  | .error _ => []
  | .ok (_, project, freelancer) =>
    [updateRatingTx ratingId newRating freelancer.userId project.assignedTo]

/-!
## `POST /api/client/projects`
(`src/client/client.js`, handler at lines 149-262.)
Checks: non-empty title, client existence.  The two writes —
`prisma.project.create` and the `prisma.client.update` incrementing
`projectsPosted` — are two separate top-level `await`s with NO
surrounding `$transaction`, so each is its own atomic commit; a failure
between them leaves the first committed and the second not.  We expose
the write phase as an explicit commit list.
-/

def errTitleRequired : ApiError := ⟨400, "Project title is required"⟩

/-- The checks the post-project handler runs before writing. -/
def postProjectChecks (s : GigState) (userId title newProjectId : String) :
    Except ApiError Client :=
  if title = "" then .error errTitleRequired
  else match findClientByUserId s userId with
  | none => .error errClientNotFound
  | some client =>
    if s.projects.any (fun p => p.id = newProjectId) then .error errUniqueViolation
    else .ok client

/-- First commit: `prisma.project.create` (status defaults to
`ADMIN_VERIFICATION`, `assignedTo` and `rejectedReason` null). -/
def postProjectCreate (title clientId newProjectId : String) (now : Nat)
    (s : GigState) : GigState :=
  { s with projects := s.projects ++
      [⟨newProjectId, title, clientId, ProjectStatus.ADMIN_VERIFICATION, none, none, now⟩] }

/-- Second commit: `prisma.client.update` incrementing `projectsPosted`. -/
def postProjectIncrement (clientId : String) (s : GigState) : GigState :=
  { s with clients := s.clients.map (fun c =>
      if c.id = clientId then { c with projectsPosted := c.projectsPosted + 1 } else c) }

/-- The post-project handler's committed write phase: TWO separate commits. -/
def postProjectCommits (s : GigState) (userId title newProjectId : String)
    (now : Nat) : List (GigState → GigState) :=
  match postProjectChecks s userId title newProjectId with
  | .error _ => []
  | .ok client =>
    [postProjectCreate title client.id newProjectId now, postProjectIncrement client.id]

/-- `postProject s userId title newProjectId now`: the full successful run. -/
def postProject (s : GigState) (userId title newProjectId : String)
    (now : Nat) : Except ApiError GigState :=
  match postProjectChecks s userId title newProjectId with
  | .error e => .error e
  | .ok _ => .ok ((postProjectCommits s userId title newProjectId now).foldl
      (fun st c => c st) s)

/-- The storage state after the first `k` commits of a write phase have
committed and the handler then fails: commits are atomic, so exactly the
prefix is visible. -/
def applyCommitPrefix (s : GigState) (cs : List (GigState → GigState)) (k : Nat) : GigState :=
  (cs.take k).foldl (fun st c => c st) s

/-- The state an `Except`-returning handler leaves behind: the new state on
success, the unchanged input state on a rolled-back failure. -/
def stateAfter (r : Except ApiError GigState) (s : GigState) : GigState :=
  match r with
  | .ok s' => s'
  | .error _ => s

/-!
## `POST /api/client/login`
(client auth file, `login` at lines 139-200, with `getCache`/`setCache`
from `src/utils/redis.js`.)
The handler first consults the cache under ``client:login:${email}`` and,
on a hit, answers 200 with the cached `{ user, token }` without ever
reading the password.  On a miss it checks the user row, the role, and
`bcrypt.compare`, then caches the response data for 600 seconds.
`bcryptCompare` and `generateToken` are external collaborators passed in
as functions.
-/

/-- The `{ user, token }` payload the login handler caches and returns;
the user is abbreviated to its id. -/
structure LoginData where
  userId : String
  token : String
deriving DecidableEq, Repr

/-- A cache entry: stored value plus the TTL (seconds) it was set with. -/
structure CacheEntry where
  value : LoginData
  ttl : Nat
deriving DecidableEq, Repr

/-- The best-effort key/value cache, as an association list. -/
abbrev Cache := List (String × CacheEntry)

/-- `getCache key`. -/
def cacheGet (c : Cache) (key : String) : Option CacheEntry :=
  (List.find? (fun e => e.1 = key) c).map Prod.snd

/-- `setCache key value ttl`: the new binding shadows any old one. -/
def cacheSet (c : Cache) (key : String) (v : LoginData) (ttl : Nat) : Cache :=
  (key, ⟨v, ttl⟩) :: List.filter (fun e => e.1 ≠ key) c

/-- A `users` row as the login handler sees it. -/
structure LoginUser where
  id : String
  email : String
  password : String
  isClient : Bool
deriving DecidableEq, Repr

/-- The handler's HTTP outcome. -/
inductive LoginResponse where
  | success (data : LoginData)
  | invalid
deriving DecidableEq, Repr

/-- `login bcryptCompare generateToken cache db email password`:
the client login handler; returns the response and the cache it leaves. -/
def login (bcryptCompare : String → String → Bool) (generateToken : String → String)
    (cache : Cache) (db : List LoginUser) (email password : String) :
    LoginResponse × Cache :=
  let cacheKey := "client:login:" ++ email
  match cacheGet cache cacheKey with
  | some entry => (.success entry.value, cache)
  | none =>
    match db.find? (fun u => u.email = email) with
    | none => (.invalid, cache)
    | some user =>
      if !user.isClient then (.invalid, cache)
      else if !bcryptCompare password user.password then (.invalid, cache)
      else
        let responseData : LoginData := ⟨user.id, generateToken user.id⟩
        (.success responseData, cacheSet cache cacheKey responseData 600)

/-- The users table for exercising login: one active client account. -/
def loginTestDb : List LoginUser := [⟨"u1", "a@b.c", "hash1", true⟩]

/-- A stand-in for `bcrypt.compare` in concrete login runs: the submitted
password must equal the stored hash. -/
def checkEq : String → String → Bool := fun p h => p = h

/-- A stand-in for `generateToken` in concrete login runs. -/
def tokF : String → String := fun i => "tok-" ++ i

/-- The cache a first successful login of `a@b.c` leaves behind. -/
def loginTestCache : Cache := [("client:login:a@b.c", ⟨⟨"u1", "tok-u1"⟩, 600⟩)]

/-!
## Operation sequences and the assignment invariant
-/

/-- Freelancer `f1` with three COMPLETED projects of client `c1`, not yet
rated. -/
def ratingState0 : GigState where
  freelancers := [⟨"f1", "uf1", 3, 0, true⟩]
  clients := [⟨"c1", "uc1", 3⟩]
  projects := [⟨"p1", "Site", "c1", ProjectStatus.COMPLETED, some "f1", none, 0⟩,
               ⟨"p2", "App", "c1", ProjectStatus.COMPLETED, some "f1", none, 0⟩,
               ⟨"p3", "Bot", "c1", ProjectStatus.COMPLETED, some "f1", none, 0⟩]
  applications := []
  ratings := []

/-- `ratingState0` after rating 5 on `p1` (stored average 5.00). -/
def ratingState1 : GigState :=
  { ratingState0 with
    freelancers := [⟨"f1", "uf1", 3, 500, true⟩],
    ratings := [⟨"r1", "p1", "uc1", "uf1", RaterType.CLIENT_TO_FREELANCER, 5⟩] }

/-- `ratingState1` after rating 3 on `p2` (stored average 4.00). -/
def ratingState2 : GigState :=
  { ratingState0 with
    freelancers := [⟨"f1", "uf1", 3, 400, true⟩],
    ratings := [⟨"r1", "p1", "uc1", "uf1", RaterType.CLIENT_TO_FREELANCER, 5⟩,
                ⟨"r2", "p2", "uc1", "uf1", RaterType.CLIENT_TO_FREELANCER, 3⟩] }

/-- `ratingState2` after rating 4 on `p3` (stored average 4.00). -/
def ratingState3 : GigState :=
  { ratingState0 with
    freelancers := [⟨"f1", "uf1", 3, 400, true⟩],
    ratings := [⟨"r1", "p1", "uc1", "uf1", RaterType.CLIENT_TO_FREELANCER, 5⟩,
                ⟨"r2", "p2", "uc1", "uf1", RaterType.CLIENT_TO_FREELANCER, 3⟩,
                ⟨"r3", "p3", "uc1", "uf1", RaterType.CLIENT_TO_FREELANCER, 4⟩] }

/-- `ratingState3` after editing `r2` from 3 to 5 (mean 14/3, stored 4.67). -/
def ratingState4 : GigState :=
  { ratingState0 with
    freelancers := [⟨"f1", "uf1", 3, 467, true⟩],
    ratings := [⟨"r1", "p1", "uc1", "uf1", RaterType.CLIENT_TO_FREELANCER, 5⟩,
                ⟨"r2", "p2", "uc1", "uf1", RaterType.CLIENT_TO_FREELANCER, 5⟩,
                ⟨"r3", "p3", "uc1", "uf1", RaterType.CLIENT_TO_FREELANCER, 4⟩] }

/-- An OPEN unassigned project where only the unavailable `f2` has applied,
leaving `f1` free to apply. -/
def applyTestState : GigState where
  freelancers := [⟨"f1", "uf1", 0, 0, true⟩, ⟨"f2", "uf2", 0, 0, false⟩]
  clients := [⟨"c1", "uc1", 0⟩]
  projects := [⟨"p1", "Site", "c1", ProjectStatus.OPEN, none, none, 0⟩]
  applications := [⟨"a2", "p1", "f2", none, ApplicationStatus.PENDING⟩]
  ratings := []

/-- What a successful rating submission must have done: a rated freelancer
row of the pre-state exists such that the new rating row is stored with
`ratedId` = that freelancer's user id, the freelancer's stored average
(in hundredths) equals the unweighted mean of all its
`CLIENT_TO_FREELANCER` ratings rounded to two decimals, and the rating
write and the aggregate write form a single commit. -/
def RateOutcome (s s' : GigState) (uid pid : String) (r : Nat) (nid : String) : Prop :=
  ∃ fl ∈ s.freelancers,
    (∃ row ∈ s'.ratings, row.id = nid ∧ row.projectId = pid ∧ row.raterId = uid ∧
      row.ratedId = fl.userId ∧ row.raterType = RaterType.CLIENT_TO_FREELANCER ∧
      row.rating = r) ∧
    (∀ f ∈ s'.freelancers, f.id = fl.id →
      (f.ratings : ℚ) / 100 =
        round2 (ratingAvg (ratingsOf s'.ratings fl.userId RaterType.CLIENT_TO_FREELANCER))) ∧
    (∀ k, applyCommitPrefix s (rateFreelancerCommits s uid pid r nid) k = s ∨
          applyCommitPrefix s (rateFreelancerCommits s uid pid r nid) k = s')

/-- What a successful rating update must have done: the rated freelancer's
stored average (in hundredths) equals the recomputed mean of all its
`CLIENT_TO_FREELANCER` ratings rounded to two decimals, written in the
same single commit as the rating update. -/
def UpdateRateOutcome (s s' : GigState) (uid rid : String) (nr : Option Nat) : Prop :=
  ∃ fl ∈ s.freelancers,
    (∀ f ∈ s'.freelancers, f.id = fl.id →
      (f.ratings : ℚ) / 100 =
        round2 (ratingAvg (ratingsOf s'.ratings fl.userId RaterType.CLIENT_TO_FREELANCER))) ∧
    (∀ k, applyCommitPrefix s (updateRatingCommits s uid rid nr) k = s ∨
          applyCommitPrefix s (updateRatingCommits s uid rid nr) k = s')

/-- The exposed project-mutating operations: project creation, application
approval, direct assignment, completion request, completion approval,
completion rejection. -/
inductive Op where
  | post (userId title newProjectId : String) (now : Nat)
  | approveApp (userId projectId applicationId : String) (now : Nat)
  | assign (userId projectId freelancerId : String) (now : Nat)
  | reqCompletion (userId projectId : String) (now : Nat)
  | approveCompl (userId projectId : String) (now : Nat)
  | rejectCompl (userId projectId reason : String) (now : Nat)
deriving DecidableEq, Repr

/-- Run one operation; a failed handler leaves the state unchanged. -/
def runOp (s : GigState) : Op → GigState
  | .post u t npid now => stateAfter (postProject s u t npid now) s
  | .approveApp u pid aid now => stateAfter (approveApplication s u pid aid now) s
  | .assign u pid fid now => stateAfter (assignProject s u pid fid now) s
  | .reqCompletion u pid now => stateAfter (requestCompletion s u pid now) s
  | .approveCompl u pid now => stateAfter (approveCompletion s u pid now) s
  | .rejectCompl u pid r now => stateAfter ((rejectCompletion s u pid r now).map Prod.fst) s

/-- Run a sequence of operations. -/
def runOps (s : GigState) (ops : List Op) : GigState := ops.foldl runOp s

/-- The statuses in which a project carries an assignee. -/
def statusHasAssignee : ProjectStatus → Bool
  | .ASSIGNED => true
  | .PENDING_COMPLETION => true
  | .COMPLETED => true
  | .REJECTED_COMPLETION => true
  | _ => false

/-- The spec's §8 invariant: `assignedTo != null` iff the status is one of
ASSIGNED, PENDING_COMPLETION, COMPLETED, REJECTED_COMPLETION. -/
def AssignInv (s : GigState) : Prop :=
  ∀ p ∈ s.projects, p.assignedTo.isSome = statusHasAssignee p.status

instance : DecidablePred AssignInv := fun s =>
  inferInstanceAs (Decidable (∀ p ∈ s.projects, _))

/-- Database well-formedness: project ids are unique (`@id` column). -/
def ProjIdsNodup (s : GigState) : Prop := (s.projects.map Project.id).Nodup

instance : DecidablePred ProjIdsNodup := fun s =>
  inferInstanceAs (Decidable ((s.projects.map Project.id).Nodup))

/-- A small concrete storage state used to exercise the handlers: one OPEN
project of client `c1` with PENDING applications from the available `f1`
and the unavailable `f2`. -/
def testState : GigState where
  freelancers := [⟨"f1", "uf1", 0, 0, true⟩, ⟨"f2", "uf2", 0, 0, false⟩]
  clients := [⟨"c1", "uc1", 0⟩]
  projects := [⟨"p1", "Site", "c1", ProjectStatus.OPEN, none, none, 0⟩]
  applications := [⟨"a1", "p1", "f1", none, ApplicationStatus.PENDING⟩,
                   ⟨"a2", "p1", "f2", none, ApplicationStatus.PENDING⟩]
  ratings := []

/-- `testState` after `approveApplication testState "uc1" "p1" "a1" 1`. -/
def approvedTestState : GigState where
  freelancers := [⟨"f1", "uf1", 0, 0, true⟩, ⟨"f2", "uf2", 0, 0, false⟩]
  clients := [⟨"c1", "uc1", 0⟩]
  projects := [⟨"p1", "Site", "c1", ProjectStatus.ASSIGNED, some "f1", none, 1⟩]
  applications := [⟨"a1", "p1", "f1", none, ApplicationStatus.APPROVED⟩,
                   ⟨"a2", "p1", "f2", none, ApplicationStatus.REJECTED⟩]
  ratings := []

/-- What a successful approve must have done: the chosen application was a
PENDING application of the project and is now APPROVED, every other
previously-PENDING application of the project is now REJECTED, the project
is ASSIGNED to the chosen applicant, no application of the project remains
PENDING, and the write phase is a single commit (any mid-failure state is
the pre-state or the post-state). -/
def ApproveOutcome (s s' : GigState) (uid pid aid : String) (now : Nat) : Prop :=
  ∃ app ∈ s.applications, app.id = aid ∧ app.projectId = pid ∧
    app.status = ApplicationStatus.PENDING ∧
    (∀ a ∈ s'.applications, a.id = aid → a.status = ApplicationStatus.APPROVED) ∧
    (∀ a ∈ s.applications, a.projectId = pid → a.id ≠ aid →
      a.status = ApplicationStatus.PENDING →
      { a with status := ApplicationStatus.REJECTED } ∈ s'.applications) ∧
    (∀ p ∈ s'.projects, p.id = pid →
      p.assignedTo = some app.freelancerId ∧ p.status = ProjectStatus.ASSIGNED) ∧
    (∀ a ∈ s'.applications, a.projectId = pid → a.status ≠ ApplicationStatus.PENDING) ∧
    (∀ k, applyCommitPrefix s (approveApplicationCommits s uid pid aid now) k = s ∨
          applyCommitPrefix s (approveApplicationCommits s uid pid aid now) k = s')

/-- What a successful approve-completion must have done: the project was a
PENDING_COMPLETION project of the calling client and is now COMPLETED,
the assigned freelancer's `projectsCompleted` went up by exactly one, and
both writes form a single commit. -/
def CompletionOutcome (s s' : GigState) (uid pid : String) (now : Nat) : Prop :=
  ∃ p0 ∈ s.projects, p0.id = pid ∧ p0.status = ProjectStatus.PENDING_COMPLETION ∧
    (∃ client, findClientByUserId s uid = some client ∧ p0.clientId = client.id) ∧
    ∃ fid, p0.assignedTo = some fid ∧
      (∀ p ∈ s'.projects, p.id = pid → p.status = ProjectStatus.COMPLETED) ∧
      (∀ g ∈ s.freelancers, g.id = fid →
        { g with projectsCompleted := g.projectsCompleted + 1 } ∈ s'.freelancers) ∧
      (∀ f ∈ s'.freelancers, f.id = fid →
        ∃ g ∈ s.freelancers, g.id = fid ∧ f.projectsCompleted = g.projectsCompleted + 1) ∧
      (∀ k, applyCommitPrefix s (approveCompletionCommits s uid pid now) k = s ∨
            applyCommitPrefix s (approveCompletionCommits s uid pid now) k = s')

/-- A PENDING_COMPLETION project of client `c1` assigned to freelancer `f1`. -/
def pendingComplTestState : GigState where
  freelancers := [⟨"f1", "uf1", 0, 0, true⟩]
  clients := [⟨"c1", "uc1", 1⟩]
  projects := [⟨"p1", "Site", "c1", ProjectStatus.PENDING_COMPLETION, some "f1", none, 1⟩]
  applications := []
  ratings := []

/-- `pendingComplTestState` after `approveCompletion _ "uc1" "p1" 2`. -/
def completedComplTestState : GigState where
  freelancers := [⟨"f1", "uf1", 1, 0, true⟩]
  clients := [⟨"c1", "uc1", 1⟩]
  projects := [⟨"p1", "Site", "c1", ProjectStatus.COMPLETED, some "f1", none, 2⟩]
  applications := []
  ratings := []

/-- `pendingComplTestState` after `rejectCompletion _ "uc1" "p1" _ 3`:
back to ASSIGNED, `assignedTo` kept, `rejectedReason` still null. -/
def rejectedComplTestState : GigState where
  freelancers := [⟨"f1", "uf1", 0, 0, true⟩]
  clients := [⟨"c1", "uc1", 1⟩]
  projects := [⟨"p1", "Site", "c1", ProjectStatus.ASSIGNED, some "f1", none, 3⟩]
  applications := []
  ratings := []

/-- A lone client with no projects, for exercising project posting. -/
def postTestState : GigState where
  freelancers := []
  clients := [⟨"c1", "uc1", 0⟩]
  projects := []
  applications := []
  ratings := []

/-- What a successful reject-completion must have done: the reason is only
echoed in the response; storage-wise the project that was
PENDING_COMPLETION goes back to ASSIGNED with only `status` and
`updatedAt` touched (`assignedTo` and `rejectedReason` kept as they were),
and no other table changes. -/
def RejectCompletionOutcome (s s' : GigState) (pid reason echoed : String)
    (now : Nat) : Prop :=
  echoed = reason ∧
  s'.freelancers = s.freelancers ∧ s'.clients = s.clients ∧
  s'.applications = s.applications ∧ s'.ratings = s.ratings ∧
  (∃ p0 ∈ s.projects, p0.id = pid ∧ p0.status = ProjectStatus.PENDING_COMPLETION) ∧
  s'.projects = s.projects.map (fun p =>
    if p.id = pid then { p with status := ProjectStatus.ASSIGNED, updatedAt := now }
    else p)

/-!
## Success-shape lemmas: what a `.ok` result tells us about the input
state and the output state of each handler.
-/

theorem approveApplicationChecks_ok {s : GigState} {uid pid aid : String} {app : Application}
    (h : approveApplicationChecks s uid pid aid = .ok app) :
    ∃ client project, findClientByUserId s uid = some client ∧
      findProjectOfClient s pid client.id = some project ∧
      project.status = ProjectStatus.OPEN ∧
      findApplicationInProject s aid pid = some app ∧
      app.status = ApplicationStatus.PENDING := by
  unfold approveApplicationChecks at h
  split at h
  · simp at h
  next client hc =>
    split at h
    · simp at h
    next project hp =>
      split at h
      · simp at h
      next hst =>
        split at h
        · simp at h
        next application ha =>
          split at h
          · simp at h
          next hap =>
            obtain rfl : application = app := by simpa using h
            exact ⟨client, project, hc, hp, by simpa using hst, ha, by simpa using hap⟩

theorem approveApplication_ok {s s' : GigState} {uid pid aid : String} {now : Nat}
    (h : approveApplication s uid pid aid now = .ok s') :
    ∃ app, approveApplicationChecks s uid pid aid = .ok app ∧
      s' = approveApplicationTx pid aid app.freelancerId now s := by
  unfold approveApplication at h
  cases hc : approveApplicationChecks s uid pid aid with
  | error e => rw [hc] at h; exact absurd h (by simp)
  | ok app => rw [hc] at h; exact ⟨app, rfl, by simpa using h.symm⟩

theorem assignProject_ok {s s' : GigState} {uid pid fid : String} {now : Nat}
    (h : assignProject s uid pid fid now = .ok s') :
    ∃ client project fl, findClientByUserId s uid = some client ∧
      findProjectOfClient s pid client.id = some project ∧
      project.status = ProjectStatus.OPEN ∧
      findFreelancerById s fid = some fl ∧
      s' = { s with projects := s.projects.map (fun p =>
        if p.id = pid then
          { p with assignedTo := some fid, status := ProjectStatus.ASSIGNED, updatedAt := now }
        else p) } := by
  unfold assignProject at h
  split at h
  · simp at h
  next client hc =>
    split at h
    · simp at h
    next project hp =>
      split at h
      · simp at h
      next hst =>
        split at h
        · simp at h
        next fl hf =>
          exact ⟨client, project, fl, hc, hp, by simpa using hst, hf,
            by simpa using h.symm⟩

theorem requestCompletion_ok {s s' : GigState} {uid pid : String} {now : Nat}
    (h : requestCompletion s uid pid now = .ok s') :
    ∃ fl p0, findFreelancerByUserId s uid = some fl ∧ p0 ∈ s.projects ∧
      p0.id = pid ∧ p0.assignedTo = some fl.id ∧ p0.status = ProjectStatus.ASSIGNED ∧
      s' = { s with projects := s.projects.map (fun p =>
        if p.id = pid then
          { p with status := ProjectStatus.PENDING_COMPLETION, updatedAt := now }
        else p) } := by
  unfold requestCompletion at h
  split at h
  · simp at h
  next fl hf =>
    split at h
    · simp at h
    next p0 hp =>
      have hmem := List.mem_of_find?_eq_some hp
      have hprop := List.find?_some hp
      simp only [decide_eq_true_eq] at hprop
      exact ⟨fl, p0, hf, hmem, hprop.1, hprop.2.1, hprop.2.2, by simpa using h.symm⟩

theorem approveCompletionChecks_ok {s : GigState} {uid pid fid : String}
    (h : approveCompletionChecks s uid pid = .ok fid) :
    ∃ client p0 fl, findClientByUserId s uid = some client ∧ p0 ∈ s.projects ∧
      p0.id = pid ∧ p0.clientId = client.id ∧
      p0.status = ProjectStatus.PENDING_COMPLETION ∧
      p0.assignedTo = some fid ∧ findFreelancerById s fid = some fl := by
  unfold approveCompletionChecks at h
  split at h
  · simp at h
  next client hc =>
    split at h
    · simp at h
    next p0 hp =>
      have hmem := List.mem_of_find?_eq_some hp
      have hprop := List.find?_some hp
      simp only [decide_eq_true_eq] at hprop
      split at h
      · simp at h
      next fid' ha =>
        split at h
        · simp at h
        next fl hf =>
          obtain rfl : fid' = fid := by simpa using h
          exact ⟨client, p0, fl, hc, hmem, hprop.1, hprop.2.1, hprop.2.2, ha, hf⟩

theorem approveCompletion_ok {s s' : GigState} {uid pid : String} {now : Nat}
    (h : approveCompletion s uid pid now = .ok s') :
    ∃ fid, approveCompletionChecks s uid pid = .ok fid ∧
      s' = approveCompletionTx pid fid now s := by
  unfold approveCompletion at h
  split at h
  · simp at h
  next fid hc =>
    exact ⟨fid, hc, by simpa using h.symm⟩

theorem rejectCompletion_ok {s s' : GigState} {uid pid reason echoed : String} {now : Nat}
    (h : rejectCompletion s uid pid reason now = .ok (s', echoed)) :
    ∃ client p0, reason ≠ "" ∧ findClientByUserId s uid = some client ∧
      p0 ∈ s.projects ∧ p0.id = pid ∧ p0.clientId = client.id ∧
      p0.status = ProjectStatus.PENDING_COMPLETION ∧ echoed = reason ∧
      s' = { s with projects := s.projects.map (fun p =>
        if p.id = pid then
          { p with status := ProjectStatus.ASSIGNED, updatedAt := now }
        else p) } := by
  unfold rejectCompletion at h
  split at h
  · simp at h
  next hr =>
    split at h
    · simp at h
    next client hc =>
      split at h
      · simp at h
      next p0 hp =>
        have hmem := List.mem_of_find?_eq_some hp
        have hprop := List.find?_some hp
        simp only [decide_eq_true_eq] at hprop
        have hpair := h
        simp only [Except.ok.injEq, Prod.mk.injEq] at hpair
        exact ⟨client, p0, hr, hc, hmem, hprop.1, hprop.2.1, hprop.2.2,
          hpair.2.symm, hpair.1.symm⟩

theorem postProject_ok {s s' : GigState} {uid title npid : String} {now : Nat}
    (h : postProject s uid title npid now = .ok s') :
    ∃ client, postProjectChecks s uid title npid = .ok client ∧
      s' = postProjectIncrement client.id
        (postProjectCreate title client.id npid now s) := by
  unfold postProject at h
  cases hc : postProjectChecks s uid title npid with
  | error e => rw [hc] at h; exact absurd h (by simp)
  | ok client =>
    rw [hc] at h
    refine ⟨client, rfl, ?_⟩
    have : s' = (postProjectCommits s uid title npid now).foldl (fun st c => c st) s := by
      simpa using h.symm
    rw [this]
    unfold postProjectCommits
    rw [hc]
    rfl

theorem postProjectChecks_ok {s : GigState} {uid title npid : String} {client : Client}
    (h : postProjectChecks s uid title npid = .ok client) :
    title ≠ "" ∧ findClientByUserId s uid = some client ∧
      ¬ s.projects.any (fun p => p.id = npid) := by
  unfold postProjectChecks at h
  split at h
  · simp at h
  next ht =>
    split at h
    · simp at h
    next c hc =>
      split at h
      · simp at h
      next hu =>
        obtain rfl : c = client := by simpa using h
        exact ⟨ht, hc, hu⟩

/-!
## C1: single-winner application approval is one atomic unit
-/

/-- C1: a successful `approve(projectId, applicationId)` approves the chosen
PENDING application, rejects every other PENDING application of the
project, sets the project's `assignedTo` to the chosen freelancer and its
status to ASSIGNED, all as one atomic transaction, and afterwards no
application of the project is PENDING. -/
theorem approve_single_winner_atomic (s s' : GigState) (uid pid aid : String) (now : Nat)
    (h : approveApplication s uid pid aid now = .ok s') :
    ApproveOutcome s s' uid pid aid now := by
  obtain ⟨app, hchk, rfl⟩ := approveApplication_ok h
  obtain ⟨client, project, hc, hp, hst, ha, hap⟩ := approveApplicationChecks_ok hchk
  unfold findApplicationInProject at ha
  have happmem := List.mem_of_find?_eq_some ha
  have happrop := List.find?_some ha
  simp only [decide_eq_true_eq] at happrop
  refine ⟨app, happmem, happrop.1, happrop.2, hap, ?_, ?_, ?_, ?_, ?_⟩
  · intro a' ha' hid'
    simp only [approveApplicationTx, List.mem_map] at ha'
    obtain ⟨a, hamem, rfl⟩ := ha'
    split_ifs at hid' ⊢ with h1 h2
    · rfl
    · exact absurd hid' h2.2.1
    · exact absurd hid' h1
  · intro a hamem hpid' hne hpend
    have hfa : (if a.id = aid then { a with status := ApplicationStatus.APPROVED }
        else if a.projectId = pid ∧ a.id ≠ aid ∧ a.status = ApplicationStatus.PENDING then
          { a with status := ApplicationStatus.REJECTED }
        else a) = { a with status := ApplicationStatus.REJECTED } := by
      rw [if_neg hne, if_pos ⟨hpid', hne, hpend⟩]
    simp only [approveApplicationTx, List.mem_map]
    exact ⟨a, hamem, hfa⟩
  · intro p' hp' hid'
    simp only [approveApplicationTx, List.mem_map] at hp'
    obtain ⟨p, hpm, rfl⟩ := hp'
    split_ifs at hid' ⊢ with h1
    · exact ⟨rfl, rfl⟩
    · exact absurd hid' h1
  · intro a' ha' hpid'
    simp only [approveApplicationTx, List.mem_map] at ha'
    obtain ⟨a, hamem, rfl⟩ := ha'
    split_ifs at hpid' ⊢ with h1 h2
    · simp
    · simp
    · intro hPend
      exact h2 ⟨hpid', h1, hPend⟩
  · intro k
    have hcom : approveApplicationCommits s uid pid aid now =
        [approveApplicationTx pid aid app.freelancerId now] := by
      unfold approveApplicationCommits
      rw [hchk]
    rw [hcom]
    match k with
    | 0 => exact Or.inl rfl
    | k + 1 =>
      right
      simp [applyCommitPrefix]

/-- Witness for C1: the approval of application `a1` on `testState`. -/
theorem approve_single_winner_atomic_witness :
    approveApplication testState "uc1" "p1" "a1" 1 = .ok approvedTestState ∧
      ApproveOutcome testState approvedTestState "uc1" "p1" "a1" 1 :=
  ⟨by decide,
   approve_single_winner_atomic testState approvedTestState "uc1" "p1" "a1" 1 (by decide)⟩

/-!
## C6: completion approval completes the project and counts it, atomically
-/

/-- C6: a successful `approveCompletion(projectId)` on a PENDING_COMPLETION
project of the calling client moves it to COMPLETED and increments the
assigned freelancer's `projectsCompleted` by exactly 1, both writes in one
atomic commit. -/
theorem approve_completion_increments_counter (s s' : GigState) (uid pid : String)
    (now : Nat) (h : approveCompletion s uid pid now = .ok s') :
    CompletionOutcome s s' uid pid now := by
  obtain ⟨fid, hchk, rfl⟩ := approveCompletion_ok h
  obtain ⟨client, p0, fl, hc, hmem, hid, hcid, hst, ha, hf⟩ := approveCompletionChecks_ok hchk
  refine ⟨p0, hmem, hid, hst, ⟨client, hc, hcid⟩, fid, ha, ?_, ?_, ?_, ?_⟩
  · intro p' hp' hid'
    simp only [approveCompletionTx, List.mem_map] at hp'
    obtain ⟨p, hpm, rfl⟩ := hp'
    split_ifs at hid' ⊢ with h1
    · rfl
    · exact absurd hid' h1
  · intro g hgmem hgid
    have hfg : (if g.id = fid then { g with projectsCompleted := g.projectsCompleted + 1 }
        else g) = { g with projectsCompleted := g.projectsCompleted + 1 } := if_pos hgid
    simp only [approveCompletionTx, List.mem_map]
    exact ⟨g, hgmem, hfg⟩
  · intro f' hf' hfid'
    simp only [approveCompletionTx, List.mem_map] at hf'
    obtain ⟨g, hgmem, rfl⟩ := hf'
    split_ifs at hfid' ⊢ with h1
    · exact ⟨g, hgmem, h1, rfl⟩
    · exact absurd hfid' h1
  · intro k
    have hcom : approveCompletionCommits s uid pid now =
        [approveCompletionTx pid fid now] := by
      unfold approveCompletionCommits
      rw [hchk]
    rw [hcom]
    match k with
    | 0 => exact Or.inl rfl
    | k + 1 =>
      right
      simp [applyCommitPrefix]

/-- Witness for C6: completing project `p1` on `pendingComplTestState`. -/
theorem approve_completion_increments_counter_witness :
    approveCompletion pendingComplTestState "uc1" "p1" 2 = .ok completedComplTestState ∧
      CompletionOutcome pendingComplTestState completedComplTestState "uc1" "p1" 2 :=
  ⟨by decide,
   approve_completion_increments_counter pendingComplTestState completedComplTestState
     "uc1" "p1" 2 (by decide)⟩

/-!
## C7: completion rejection — the reason is echoed but never persisted
-/

/-- Counterexample for C7 as stated: rejecting completion of `p1` with the
reason "Needs rework" succeeds and returns the project to ASSIGNED, but
the stored project's `rejectedReason` column is still null — the supplied
reason is not persisted anywhere in storage. -/
theorem reject_completion_reason_not_persisted :
    rejectCompletion pendingComplTestState "uc1" "p1" "Needs rework" 3 =
      .ok (rejectedComplTestState, "Needs rework") ∧
    (∀ p ∈ rejectedComplTestState.projects, p.rejectedReason = none) ∧
    rejectedComplTestState.projects ≠
      [⟨"p1", "Site", "c1", ProjectStatus.ASSIGNED, some "f1", some "Needs rework", 3⟩] := by
  decide

/-- C7 (amended): a successful `rejectCompletion(projectId, reason)` on a
PENDING_COMPLETION project of the calling client sets the status back to
ASSIGNED and touches only `status` and `updatedAt` — `assignedTo` is
unchanged, but the reason is only echoed in the HTTP response and is NOT
persisted (`rejectedReason` keeps its old value). -/
theorem reject_completion_back_to_assigned (s s' : GigState)
    (uid pid reason echoed : String) (now : Nat)
    (h : rejectCompletion s uid pid reason now = .ok (s', echoed)) :
    RejectCompletionOutcome s s' pid reason echoed now := by
  obtain ⟨client, p0, hr, hc, hmem, hid, hcid, hst, hech, rfl⟩ := rejectCompletion_ok h
  exact ⟨hech, rfl, rfl, rfl, rfl, ⟨p0, hmem, hid, hst⟩, rfl⟩

/-- Witness for the amended C7: rejecting completion of `p1`. -/
theorem reject_completion_back_to_assigned_witness :
    rejectCompletion pendingComplTestState "uc1" "p1" "Needs rework" 3 =
      .ok (rejectedComplTestState, "Needs rework") ∧
    RejectCompletionOutcome pendingComplTestState rejectedComplTestState
      "p1" "Needs rework" "Needs rework" 3 :=
  ⟨by decide,
   reject_completion_back_to_assigned pendingComplTestState rejectedComplTestState
     "uc1" "p1" "Needs rework" "Needs rework" 3 (by decide)⟩

/-!
## C8: neither assignment path checks the freelancer's availability
-/

/-- Counterexample for C8 as stated: freelancer `f2` has
`availability = false`, yet direct assignment of the OPEN project `p1` to
`f2` succeeds and makes the project ASSIGNED — it neither fails with
NotAvailable nor leaves the project OPEN. -/
theorem assign_unavailable_freelancer_succeeds :
    (∀ f ∈ testState.freelancers, f.id = "f2" → f.availability = false) ∧
    assignProject testState "uc1" "p1" "f2" 1 =
      .ok { testState with
        projects := [⟨"p1", "Site", "c1", ProjectStatus.ASSIGNED, some "f2", none, 1⟩] } := by
  decide

/-- C8 (amended): neither the direct-assign handler nor the approve handler
consults the freelancer's `availability` flag: whenever their lookups
succeed and the project is OPEN, both succeed even for a freelancer whose
availability is false, setting the project ASSIGNED to that freelancer.
(Availability is only enforced at application time.) -/
theorem assignment_ignores_availability :
    (∀ (s : GigState) (uid pid fid : String) (now : Nat) (client : Client)
        (project : Project) (fl : Freelancer),
      findClientByUserId s uid = some client →
      findProjectOfClient s pid client.id = some project →
      project.status = ProjectStatus.OPEN →
      findFreelancerById s fid = some fl →
      fl.availability = false →
      ∃ s', assignProject s uid pid fid now = .ok s' ∧
        ∀ p ∈ s'.projects, p.id = pid →
          p.status = ProjectStatus.ASSIGNED ∧ p.assignedTo = some fid) ∧
    (∀ (s : GigState) (uid pid aid : String) (now : Nat) (app : Application)
        (fl : Freelancer),
      approveApplicationChecks s uid pid aid = .ok app →
      findFreelancerById s app.freelancerId = some fl →
      fl.availability = false →
      ∃ s', approveApplication s uid pid aid now = .ok s' ∧
        ∀ p ∈ s'.projects, p.id = pid →
          p.status = ProjectStatus.ASSIGNED ∧ p.assignedTo = some app.freelancerId) := by
  constructor
  · intro s uid pid fid now client project fl hc hp hst hf _hunavail
    refine ⟨{ s with projects := s.projects.map (fun p =>
        if p.id = pid then
          { p with assignedTo := some fid, status := ProjectStatus.ASSIGNED,
                   updatedAt := now }
        else p) }, ?_, ?_⟩
    · simp [assignProject, hc, hp, hf, hst]
    · intro p' hp' hid'
      simp only [List.mem_map] at hp'
      obtain ⟨p, hpm, rfl⟩ := hp'
      split_ifs at hid' ⊢ with h1
      · exact ⟨rfl, rfl⟩
      · exact absurd hid' h1
  · intro s uid pid aid now app fl hchk hf _hunavail
    refine ⟨approveApplicationTx pid aid app.freelancerId now s, ?_, ?_⟩
    · unfold approveApplication
      rw [hchk]
    · intro p' hp' hid'
      simp only [approveApplicationTx, List.mem_map] at hp'
      obtain ⟨p, hpm, rfl⟩ := hp'
      split_ifs at hid' ⊢ with h1
      · exact ⟨rfl, rfl⟩
      · exact absurd hid' h1

/-- Witness for the amended C8: assigning `p1` to the unavailable `f2`
directly, and approving the unavailable `f2`'s application `a2`. -/
theorem assignment_ignores_availability_witness :
    (∃ s', assignProject testState "uc1" "p1" "f2" 1 = .ok s' ∧
      ∀ p ∈ s'.projects, p.id = "p1" →
        p.status = ProjectStatus.ASSIGNED ∧ p.assignedTo = some "f2") ∧
    (∃ s', approveApplication testState "uc1" "p1" "a2" 1 = .ok s' ∧
      ∀ p ∈ s'.projects, p.id = "p1" →
        p.status = ProjectStatus.ASSIGNED ∧ p.assignedTo = some "f2") :=
  ⟨assignment_ignores_availability.1 testState "uc1" "p1" "f2" 1
      ⟨"c1", "uc1", 0⟩ ⟨"p1", "Site", "c1", ProjectStatus.OPEN, none, none, 0⟩
      ⟨"f2", "uf2", 0, 0, false⟩ (by decide) (by decide) (by decide) (by decide) (by decide),
   assignment_ignores_availability.2 testState "uc1" "p1" "a2" 1
      ⟨"a2", "p1", "f2", none, ApplicationStatus.PENDING⟩
      ⟨"f2", "uf2", 0, 0, false⟩ (by decide) (by decide) (by decide)⟩

/-!
## C9: project posting is two separate commits, not one transaction
-/

/-- Counterexample for C9 as stated: posting a project performs TWO separate
commits, and the state after only the first commit — reachable when the
handler fails midway — contains the new project row while the client's
`projectsPosted` counter is still unincremented. -/
theorem post_project_not_atomic :
    (postProjectCommits postTestState "uc1" "Site" "p9" 7).length = 2 ∧
    (applyCommitPrefix postTestState
        (postProjectCommits postTestState "uc1" "Site" "p9" 7) 1).projects.any
      (fun p => p.id = "p9") = true ∧
    (applyCommitPrefix postTestState
        (postProjectCommits postTestState "uc1" "Site" "p9" 7) 1).clients =
      [⟨"c1", "uc1", 0⟩] := by
  decide

/-- C9 (amended): the project `create` and the `projectsPosted` increment are
two separate storage calls with no surrounding transaction.  On full
success both apply; but the mid-failure state after the first commit alone
has the project row present with every client row — in particular the
counter — unchanged.  (The reverse partial outcome, counter incremented
without the project row, is not reachable since the increment commits
second.) -/
theorem post_project_two_separate_commits (s : GigState) (uid title npid : String)
    (now : Nat) (client : Client)
    (h : postProjectChecks s uid title npid = .ok client) :
    postProjectCommits s uid title npid now =
      [postProjectCreate title client.id npid now, postProjectIncrement client.id] ∧
    postProject s uid title npid now =
      .ok (postProjectIncrement client.id (postProjectCreate title client.id npid now s)) ∧
    (∃ p ∈ (applyCommitPrefix s (postProjectCommits s uid title npid now) 1).projects,
      p.id = npid) ∧
    (applyCommitPrefix s (postProjectCommits s uid title npid now) 1).clients =
      s.clients := by
  have hcom : postProjectCommits s uid title npid now =
      [postProjectCreate title client.id npid now, postProjectIncrement client.id] := by
    unfold postProjectCommits
    rw [h]
  refine ⟨hcom, ?_, ?_, ?_⟩
  · unfold postProject
    rw [h, hcom]
    rfl
  · rw [hcom]
    exact ⟨⟨npid, title, client.id, ProjectStatus.ADMIN_VERIFICATION, none, none, now⟩,
      by simp [applyCommitPrefix, postProjectCreate], rfl⟩
  · rw [hcom]
    rfl

/-- Witness for the amended C9: posting project `p9` as client `c1`. -/
theorem post_project_two_separate_commits_witness :
    postProjectCommits postTestState "uc1" "Site" "p9" 7 =
      [postProjectCreate "Site" "c1" "p9" 7, postProjectIncrement "c1"] ∧
    postProject postTestState "uc1" "Site" "p9" 7 =
      .ok (postProjectIncrement "c1" (postProjectCreate "Site" "c1" "p9" 7 postTestState)) ∧
    (∃ p ∈ (applyCommitPrefix postTestState
        (postProjectCommits postTestState "uc1" "Site" "p9" 7) 1).projects, p.id = "p9") ∧
    (applyCommitPrefix postTestState
        (postProjectCommits postTestState "uc1" "Site" "p9" 7) 1).clients =
      postTestState.clients :=
  post_project_two_separate_commits postTestState "uc1" "Site" "p9" 7
    ⟨"c1", "uc1", 0⟩ (by decide)

/-!
## Rating aggregation: the stored hundredths value is the rounded mean
-/

/-- `(200 s + c) / (2 c)` in natural division is exactly
`⌊(s / c) * 100 + 1/2⌋`, i.e. the mean rounded half-up to hundredths. -/
theorem roundMean100_eq (su c : Nat) (hc : 0 < c) :
    (roundMean100 su c : ℚ) / 100 = round2 ((su : ℚ) / c) := by
  have hc' : (0 : ℚ) < (c : ℚ) := by exact_mod_cast hc
  have hx : ((su : ℚ) / c) * 100 + 1 / 2
      = ((200 * su + c : ℕ) : ℚ) / ((2 * c : ℕ) : ℚ) := by
    push_cast
    field_simp
    ring
  have hnonneg : (0 : ℚ) ≤ ((200 * su + c : ℕ) : ℚ) / ((2 * c : ℕ) : ℚ) := by positivity
  have hfloor : (⌊((200 * su + c : ℕ) : ℚ) / ((2 * c : ℕ) : ℚ)⌋ : ℚ)
      = ((roundMean100 su c : ℕ) : ℚ) := by
    rw [← Int.natCast_floor_eq_floor hnonneg, Nat.floor_div_eq_div]
    unfold roundMean100
    norm_cast
  unfold round2
  rw [hx, hfloor]

/-- The value the transactions store, over any rating row set:
hundredths/100 is the mean rounded to two decimals (the empty set gives 0
on both sides, matching the handlers' unreachable 0-row corner). -/
theorem stored_eq_round2 (rows : List Rating) :
    (roundMean100 (sumRatings rows) rows.length : ℚ) / 100 = round2 (ratingAvg rows) := by
  cases rows with
  | nil =>
    show (roundMean100 0 0 : ℚ) / 100 = round2 (ratingAvg [])
    have h1 : roundMean100 0 0 = 0 := rfl
    have h2 : ratingAvg [] = 0 := by
      simp [ratingAvg, sumRatings]
    rw [h1, h2]
    unfold round2
    norm_num
  | cons r rest =>
    have hlen : 0 < (r :: rest).length := Nat.succ_pos _
    rw [roundMean100_eq _ _ hlen]
    rfl

theorem rateFreelancerChecks_ok {s : GigState} {uid pid : String} {r : Nat}
    {nid : String} {project : Project} {freelancer : Freelancer}
    (h : rateFreelancerChecks s uid pid r nid = .ok (project, freelancer)) :
    (1 ≤ r ∧ r ≤ 5) ∧
    (∃ client, findClientByUserId s uid = some client ∧
      project ∈ s.projects ∧ project.id = pid ∧ project.clientId = client.id ∧
      project.status = ProjectStatus.COMPLETED) ∧
    freelancer ∈ s.freelancers ∧ project.assignedTo = some freelancer.id ∧
    findRatingByTriple s pid uid freelancer.userId = none ∧
    (s.ratings.any fun rr => rr.id = nid) = false := by
  unfold rateFreelancerChecks at h
  split at h
  · simp at h
  next hval =>
    split at h
    · simp at h
    next client hc =>
      split at h
      · simp at h
      next p0 hp =>
        have hpmem := List.mem_of_find?_eq_some hp
        have hprop := List.find?_some hp
        simp only [decide_eq_true_eq] at hprop
        split at h
        · simp at h
        next fl hbind =>
          split at h
          · simp at h
          next hdup =>
            split at h
            · simp at h
            next hany =>
              obtain ⟨h1, h2⟩ : p0 = project ∧ fl = freelancer := by simpa using h
              subst h1
              subst h2
              obtain ⟨fid, hass, hfind⟩ :
                  ∃ fid, p0.assignedTo = some fid ∧
                    findFreelancerById s fid = some fl := by
                cases hassigned : p0.assignedTo with
                | none => rw [hassigned] at hbind; simp at hbind
                | some fid => rw [hassigned] at hbind; exact ⟨fid, rfl, by simpa using hbind⟩
              have hflmem := List.mem_of_find?_eq_some hfind
              have hflid : fl.id = fid := by
                have := List.find?_some hfind
                simpa using this
              refine ⟨by omega, ⟨client, hc, hpmem, hprop.1, hprop.2.1, hprop.2.2⟩,
                hflmem, ?_, hdup, by simpa using hany⟩
              rw [hass, hflid]

theorem rateFreelancer_ok {s s' : GigState} {uid pid : String} {r : Nat}
    {rv : Option String} {nid : String}
    (h : rateFreelancer s uid pid r rv nid = .ok s') :
    ∃ project freelancer,
      rateFreelancerChecks s uid pid r nid = .ok (project, freelancer) ∧
      s' = rateFreelancerTx pid uid freelancer.userId project.assignedTo r nid s := by
  unfold rateFreelancer at h
  split at h
  · simp at h
  next project freelancer hc =>
    exact ⟨project, freelancer, hc, by simpa using h.symm⟩

theorem updateRatingChecks_ok {s : GigState} {uid rid : String} {nr : Option Nat}
    {er : Rating} {project : Project} {freelancer : Freelancer}
    (h : updateRatingChecks s uid rid nr = .ok (er, project, freelancer)) :
    er ∈ s.ratings ∧ er.id = rid ∧ er.raterId = uid ∧
    er.raterType = RaterType.CLIENT_TO_FREELANCER ∧
    findProjectById s er.projectId = some project ∧
    freelancer ∈ s.freelancers ∧ project.assignedTo = some freelancer.id := by
  unfold updateRatingChecks at h
  split at h
  · simp at h
  next hval =>
    split at h
    · simp at h
    next er0 her =>
      have hermem := List.mem_of_find?_eq_some her
      have herprop := List.find?_some her
      simp only [decide_eq_true_eq] at herprop
      split at h
      · simp at h
      next project0 hproj =>
        split at h
        · simp at h
        next fl hbind =>
          obtain ⟨h1, h2, h3⟩ : er0 = er ∧ project0 = project ∧ fl = freelancer := by
            simpa using h
          subst h1
          subst h2
          subst h3
          obtain ⟨fid, hass, hfind⟩ :
              ∃ fid, project0.assignedTo = some fid ∧
                findFreelancerById s fid = some fl := by
            cases hassigned : project0.assignedTo with
            | none => rw [hassigned] at hbind; simp at hbind
            | some fid => rw [hassigned] at hbind; exact ⟨fid, rfl, by simpa using hbind⟩
          have hflmem := List.mem_of_find?_eq_some hfind
          have hflid : fl.id = fid := by
            have := List.find?_some hfind
            simpa using this
          exact ⟨hermem, herprop.1, herprop.2.1, herprop.2.2, hproj, hflmem,
            by rw [hass, hflid]⟩

theorem updateRating_ok {s s' : GigState} {uid rid : String} {nr : Option Nat}
    (h : updateRating s uid rid nr = .ok s') :
    ∃ er project freelancer,
      updateRatingChecks s uid rid nr = .ok (er, project, freelancer) ∧
      s' = updateRatingTx rid nr freelancer.userId project.assignedTo s := by
  unfold updateRating at h
  split at h
  · simp at h
  next er project freelancer hc =>
    exact ⟨er, project, freelancer, hc, by simpa using h.symm⟩

theorem rateFreelancerTx_stores_rounded_mean (pid uid ratedId : String)
    (assignedTo : Option String) (r : Nat) (nid : String) (s : GigState) :
    ∀ f ∈ (rateFreelancerTx pid uid ratedId assignedTo r nid s).freelancers,
      some f.id = assignedTo →
      (f.ratings : ℚ) / 100 =
        round2 (ratingAvg (ratingsOf
          (rateFreelancerTx pid uid ratedId assignedTo r nid s).ratings
          ratedId RaterType.CLIENT_TO_FREELANCER)) := by
  intro f hfm hfid
  simp only [rateFreelancerTx, List.mem_map] at hfm ⊢
  obtain ⟨g, hgm, rfl⟩ := hfm
  split_ifs at hfid ⊢ with hcond
  · exact stored_eq_round2 _
  · exact absurd hfid hcond

theorem updateRatingTx_stores_rounded_mean (rid : String) (nr : Option Nat)
    (ratedId : String) (assignedTo : Option String) (s : GigState) :
    ∀ f ∈ (updateRatingTx rid nr ratedId assignedTo s).freelancers,
      some f.id = assignedTo →
      (f.ratings : ℚ) / 100 =
        round2 (ratingAvg (ratingsOf
          (updateRatingTx rid nr ratedId assignedTo s).ratings
          ratedId RaterType.CLIENT_TO_FREELANCER)) := by
  intro f hfm hfid
  simp only [updateRatingTx, List.mem_map] at hfm ⊢
  obtain ⟨g, hgm, rfl⟩ := hfm
  split_ifs at hfid ⊢ with hcond
  · exact stored_eq_round2 _
  · exact absurd hfid hcond

/-!
## C4: the stored average is always the rounded recomputed mean
-/

/-- C4: after every successful rating submission or rating update, the rated
freelancer's stored `ratings` value (hundredths) equals the unweighted
arithmetic mean of all `CLIENT_TO_FREELANCER` ratings with that
freelancer's user id as `ratedId`, rounded to two decimal places, written
in the same single commit as the rating write; and submitting {5,3,4} for
the same freelancer across three distinct projects leaves 4.00 stored. -/
theorem rating_mean_recomputed_in_transaction :
    (∀ (s s' : GigState) (uid pid : String) (r : Nat) (rv : Option String)
        (nid : String), rateFreelancer s uid pid r rv nid = .ok s' →
      RateOutcome s s' uid pid r nid) ∧
    (∀ (s s' : GigState) (uid rid : String) (nr : Option Nat),
      updateRating s uid rid nr = .ok s' → UpdateRateOutcome s s' uid rid nr) ∧
    (rateFreelancer ratingState0 "uc1" "p1" 5 none "r1" = .ok ratingState1 ∧
     rateFreelancer ratingState1 "uc1" "p2" 3 none "r2" = .ok ratingState2 ∧
     rateFreelancer ratingState2 "uc1" "p3" 4 none "r3" = .ok ratingState3 ∧
     ∀ f ∈ ratingState3.freelancers, f.id = "f1" →
       f.ratings = 400 ∧ (f.ratings : ℚ) / 100 = 4) := by
  refine ⟨?_, ?_, by decide, by decide, by decide, ?_⟩
  · intro s s' uid pid r rv nid h
    obtain ⟨project, freelancer, hchk, rfl⟩ := rateFreelancer_ok h
    obtain ⟨hr, ⟨client, hc, hpm, hpid, hpcid, hpst⟩, hflmem, hass, hdup, hany⟩ :=
      rateFreelancerChecks_ok hchk
    refine ⟨freelancer, hflmem, ?_, ?_, ?_⟩
    · exact ⟨⟨nid, pid, uid, freelancer.userId, RaterType.CLIENT_TO_FREELANCER, r⟩,
        by simp [rateFreelancerTx], rfl, rfl, rfl, rfl, rfl, rfl⟩
    · intro f hfm hfid
      refine rateFreelancerTx_stores_rounded_mean pid uid freelancer.userId
        project.assignedTo r nid s f hfm ?_
      rw [hass, hfid]
    · intro k
      have hcom : rateFreelancerCommits s uid pid r nid =
          [rateFreelancerTx pid uid freelancer.userId project.assignedTo r nid] := by
        unfold rateFreelancerCommits
        rw [hchk]
      rw [hcom]
      match k with
      | 0 => exact Or.inl rfl
      | k + 1 =>
        right
        simp [applyCommitPrefix]
  · intro s s' uid rid nr h
    obtain ⟨er, project, freelancer, hchk, rfl⟩ := updateRating_ok h
    obtain ⟨hermem, herid, herrater, hertype, hproj, hflmem, hass⟩ :=
      updateRatingChecks_ok hchk
    refine ⟨freelancer, hflmem, ?_, ?_⟩
    · intro f hfm hfid
      refine updateRatingTx_stores_rounded_mean rid nr freelancer.userId
        project.assignedTo s f hfm ?_
      rw [hass, hfid]
    · intro k
      have hcom : updateRatingCommits s uid rid nr =
          [updateRatingTx rid nr freelancer.userId project.assignedTo] := by
        unfold updateRatingCommits
        rw [hchk]
      rw [hcom]
      match k with
      | 0 => exact Or.inl rfl
      | k + 1 =>
        right
        simp [applyCommitPrefix]
  · intro f hf hid
    have hf1 : f = ⟨"f1", "uf1", 3, 400, true⟩ := by
      simpa [ratingState3, ratingState0] using hf
    subst hf1
    exact ⟨rfl, by norm_num⟩

/-- Witness for C4: the first rating submission of the {5,3,4} run, and the
rating update editing `r2` from 3 to 5 (stored average becomes 4.67). -/
theorem rating_mean_recomputed_witness :
    RateOutcome ratingState0 ratingState1 "uc1" "p1" 5 "r1" ∧
    updateRating ratingState3 "uc1" "r2" (some 5) = .ok ratingState4 ∧
    UpdateRateOutcome ratingState3 ratingState4 "uc1" "r2" (some 5) :=
  ⟨rating_mean_recomputed_in_transaction.1 ratingState0 ratingState1
      "uc1" "p1" 5 none "r1" (by decide),
   by decide,
   rating_mean_recomputed_in_transaction.2.1 ratingState3 ratingState4
      "uc1" "r2" (some 5) (by decide)⟩

/-!
## C5: a second rating for the same triple is rejected without any write
-/

/-- C5: when the checks up to the duplicate lookup succeed but a rating for
the (project, rater, rated) triple already exists, the rate-freelancer
handler fails with the already-rated Conflict error and leaves the state
— in particular the rated freelancer's aggregate — untouched. -/
theorem duplicate_rating_conflict (s : GigState) (uid pid : String) (r : Nat)
    (rv : Option String) (nid : String) (client : Client) (project : Project)
    (fl : Freelancer) (r0 : Rating)
    (hval : ¬(r < 1 ∨ r > 5))
    (hc : findClientByUserId s uid = some client)
    (hp : s.projects.find? (fun p => p.id = pid ∧ p.clientId = client.id ∧
        p.status = ProjectStatus.COMPLETED) = some project)
    (hbind : project.assignedTo.bind (findFreelancerById s) = some fl)
    (hdup : findRatingByTriple s pid uid fl.userId = some r0) :
    rateFreelancer s uid pid r rv nid = .error errAlreadyRated ∧
    stateAfter (rateFreelancer s uid pid r rv nid) s = s := by
  have hchk : rateFreelancerChecks s uid pid r nid = .error errAlreadyRated := by
    simp only [rateFreelancerChecks, if_neg hval, hc, hp, hbind, hdup]
  have hrf : rateFreelancer s uid pid r rv nid = .error errAlreadyRated := by
    unfold rateFreelancer
    rw [hchk]
  refine ⟨hrf, ?_⟩
  rw [hrf]
  rfl

/-- Witness for C5: rating `p1` a second time on `ratingState1`. -/
theorem duplicate_rating_conflict_witness :
    rateFreelancer ratingState1 "uc1" "p1" 4 none "r9" = .error errAlreadyRated ∧
    stateAfter (rateFreelancer ratingState1 "uc1" "p1" 4 none "r9") ratingState1 =
      ratingState1 :=
  duplicate_rating_conflict ratingState1 "uc1" "p1" 4 none "r9"
    ⟨"c1", "uc1", 3⟩ ⟨"p1", "Site", "c1", ProjectStatus.COMPLETED, some "f1", none, 0⟩
    ⟨"f1", "uf1", 3, 500, true⟩ ⟨"r1", "p1", "uc1", "uf1", RaterType.CLIENT_TO_FREELANCER, 5⟩
    (by decide) (by decide) (by decide) (by decide) (by decide)

/-!
## C3: the apply checks run in a fixed order — availability shadows Conflict
-/

/-- Counterexample for C3 as stated: an application for `(p1, f2)` already
exists, so the claim demands a Conflict failure, but because the handler
checks availability first and `f2` is unavailable, the call fails with
the NotAvailable error instead. -/
theorem apply_conflict_shadowed_by_availability :
    (∃ a ∈ testState.applications, a.projectId = "p1" ∧ a.freelancerId = "f2") ∧
    (∀ f ∈ testState.freelancers, f.userId = "uf2" → f.availability = false) ∧
    applyForProject testState "uf2" "p1" none "a9" = .error errMustBeAvailable ∧
    applyForProject testState "uf2" "p1" none "a9" ≠ .error errAlreadyApplied := by
  decide

/-- C3 (amended): the apply handler's failure checks run in a fixed order —
freelancer availability, then project state (not OPEN / already
assigned), then the duplicate-application Conflict — and each error is
returned exactly when its condition holds and no earlier check fired; on
success exactly one new PENDING application is appended and nothing else
changes. -/
theorem apply_checks_precedence (s : GigState) (uid pid : String)
    (prop : Option String) (naid : String) (fl : Freelancer) (project : Project)
    (hf : findFreelancerByUserId s uid = some fl)
    (hp : findProjectById s pid = some project) :
    (fl.availability = false →
      applyForProject s uid pid prop naid = .error errMustBeAvailable) ∧
    (fl.availability = true → project.status ≠ ProjectStatus.OPEN →
      applyForProject s uid pid prop naid = .error errProjectNotOpenForApplications) ∧
    (fl.availability = true → project.status = ProjectStatus.OPEN →
      project.assignedTo.isSome →
      applyForProject s uid pid prop naid = .error errProjectAlreadyAssigned) ∧
    (∀ a0, fl.availability = true → project.status = ProjectStatus.OPEN →
      project.assignedTo = none → findApplicationByPair s pid fl.id = some a0 →
      applyForProject s uid pid prop naid = .error errAlreadyApplied) ∧
    (fl.availability = true → project.status = ProjectStatus.OPEN →
      project.assignedTo = none → findApplicationByPair s pid fl.id = none →
      (s.applications.any fun a => a.id = naid) = false →
      applyForProject s uid pid prop naid =
        .ok { s with applications := s.applications ++
          [⟨naid, pid, fl.id, prop, ApplicationStatus.PENDING⟩] }) := by
  refine ⟨?_, ?_, ?_, ?_, ?_⟩
  · intro hav
    simp [applyForProject, hf, hav]
  · intro hav hst
    simp [applyForProject, hf, hp, hav, hst]
  · intro hav hst hsome
    simp [applyForProject, hf, hp, hav, hst, hsome]
  · intro a0 hav hst hnone hpair
    simp [applyForProject, hf, hp, hav, hst, hnone, hpair]
  · intro hav hst hnone hpair hany
    have hany' : ¬∃ a ∈ s.applications, a.id = naid := by simpa using hany
    simp [applyForProject, hf, hp, hav, hst, hnone, hpair, hany']

/-- Witness for the amended C3: on `applyTestState`, the available `f1`
successfully creates a PENDING application, while the unavailable `f2` —
who has already applied — gets the NotAvailable error. -/
theorem apply_checks_precedence_witness :
    applyForProject applyTestState "uf1" "p1" none "a3" =
      .ok { applyTestState with applications := applyTestState.applications ++
        [⟨"a3", "p1", "f1", none, ApplicationStatus.PENDING⟩] } ∧
    applyForProject applyTestState "uf2" "p1" none "a3" = .error errMustBeAvailable :=
  ⟨(apply_checks_precedence applyTestState "uf1" "p1" none "a3"
      ⟨"f1", "uf1", 0, 0, true⟩ ⟨"p1", "Site", "c1", ProjectStatus.OPEN, none, none, 0⟩
      (by decide) (by decide)).2.2.2.2 (by decide) (by decide) (by decide)
      (by decide) (by decide),
   (apply_checks_precedence applyTestState "uf2" "p1" none "a3"
      ⟨"f2", "uf2", 0, 0, false⟩ ⟨"p1", "Site", "c1", ProjectStatus.OPEN, none, none, 0⟩
      (by decide) (by decide)).1 (by decide)⟩

/-!
## C2: `assignedTo` is non-null exactly in the assignee-bearing statuses
-/

theorem ids_of_map_eq (l : List Project) (f : Project → Project)
    (hid : ∀ p, (f p).id = p.id) :
    (l.map f).map Project.id = l.map Project.id := by
  induction l with
  | nil => rfl
  | cons p rest ih => simp [hid p, ih]

theorem assignInv_map_assign {l : List Project} (pid fid : String) (now : Nat)
    (h : ∀ p ∈ l, p.assignedTo.isSome = statusHasAssignee p.status) :
    ∀ p' ∈ l.map (fun p => if p.id = pid then
        { p with assignedTo := some fid, status := ProjectStatus.ASSIGNED,
                 updatedAt := now }
      else p), p'.assignedTo.isSome = statusHasAssignee p'.status := by
  intro p' hp'
  rw [List.mem_map] at hp'
  obtain ⟨p, hpm, rfl⟩ := hp'
  split_ifs with h1
  · rfl
  · exact h p hpm

theorem assignInv_map_status {l : List Project} (pid : String) (st' : ProjectStatus)
    (now : Nat) (hnd : (l.map Project.id).Nodup)
    (h : ∀ p ∈ l, p.assignedTo.isSome = statusHasAssignee p.status)
    (p0 : Project) (hp0 : p0 ∈ l) (hid : p0.id = pid)
    (hsome : p0.assignedTo.isSome = true) (hst : statusHasAssignee st' = true) :
    ∀ p' ∈ l.map (fun p => if p.id = pid then { p with status := st', updatedAt := now }
      else p), p'.assignedTo.isSome = statusHasAssignee p'.status := by
  intro p' hp'
  rw [List.mem_map] at hp'
  obtain ⟨p, hpm, rfl⟩ := hp'
  split_ifs with h1
  · have hpp0 : p = p0 :=
      List.inj_on_of_nodup_map hnd hpm hp0 (h1.trans hid.symm)
    subst hpp0
    show p.assignedTo.isSome = statusHasAssignee st'
    rw [hsome, hst]
  · exact h p hpm

/-- One step preserves both the id uniqueness of projects and the
assignedTo-iff-status invariant. -/
theorem runOp_preserves (s : GigState) (op : Op)
    (hnd : ProjIdsNodup s) (hinv : AssignInv s) :
    ProjIdsNodup (runOp s op) ∧ AssignInv (runOp s op) := by
  cases op with
  | post u t npid now =>
    cases hres : postProject s u t npid now with
    | error e =>
      rw [show runOp s (Op.post u t npid now) = s by simp [runOp, stateAfter, hres]]
      exact ⟨hnd, hinv⟩
    | ok s' =>
      rw [show runOp s (Op.post u t npid now) = s' by simp [runOp, stateAfter, hres]]
      obtain ⟨client, hchk, rfl⟩ := postProject_ok hres
      obtain ⟨ht, hc, hfresh⟩ := postProjectChecks_ok hchk
      have hfresh' : npid ∉ s.projects.map Project.id := by
        rw [List.mem_map]
        rintro ⟨p, hpm, hpid⟩
        exact hfresh (List.any_eq_true.2 ⟨p, hpm, by simpa using hpid⟩)
      constructor
      · show ((s.projects ++ [_]).map Project.id).Nodup
        rw [List.map_append]
        exact List.Nodup.append hnd (List.nodup_singleton _)
          (List.disjoint_singleton.2 hfresh')
      · intro p' hp'
        rw [show (postProjectIncrement client.id
            (postProjectCreate t client.id npid now s)).projects
            = s.projects ++
              [⟨npid, t, client.id, ProjectStatus.ADMIN_VERIFICATION, none, none, now⟩]
          from rfl] at hp'
        rw [List.mem_append] at hp'
        cases hp' with
        | inl hmem => exact hinv p' hmem
        | inr hmem =>
          rw [List.mem_singleton] at hmem
          subst hmem
          rfl
  | approveApp u pid aid now =>
    cases hres : approveApplication s u pid aid now with
    | error e =>
      rw [show runOp s (Op.approveApp u pid aid now) = s by
        simp [runOp, stateAfter, hres]]
      exact ⟨hnd, hinv⟩
    | ok s' =>
      rw [show runOp s (Op.approveApp u pid aid now) = s' by
        simp [runOp, stateAfter, hres]]
      obtain ⟨app, hchk, rfl⟩ := approveApplication_ok hres
      constructor
      · show (((s.projects.map _).map Project.id)).Nodup
        rw [ids_of_map_eq _ _ (fun p => by split_ifs <;> rfl)]
        exact hnd
      · intro p' hp'
        exact assignInv_map_assign pid app.freelancerId now hinv p' hp'
  | assign u pid fid now =>
    cases hres : assignProject s u pid fid now with
    | error e =>
      rw [show runOp s (Op.assign u pid fid now) = s by simp [runOp, stateAfter, hres]]
      exact ⟨hnd, hinv⟩
    | ok s' =>
      rw [show runOp s (Op.assign u pid fid now) = s' by simp [runOp, stateAfter, hres]]
      obtain ⟨client, project, fl, hc, hp, hst, hf, rfl⟩ := assignProject_ok hres
      constructor
      · show (((s.projects.map _).map Project.id)).Nodup
        rw [ids_of_map_eq _ _ (fun p => by split_ifs <;> rfl)]
        exact hnd
      · intro p' hp'
        exact assignInv_map_assign pid fid now hinv p' hp'
  | reqCompletion u pid now =>
    cases hres : requestCompletion s u pid now with
    | error e =>
      rw [show runOp s (Op.reqCompletion u pid now) = s by
        simp [runOp, stateAfter, hres]]
      exact ⟨hnd, hinv⟩
    | ok s' =>
      rw [show runOp s (Op.reqCompletion u pid now) = s' by
        simp [runOp, stateAfter, hres]]
      obtain ⟨fl, p0, hf, hp0, hid, hass, hst, rfl⟩ := requestCompletion_ok hres
      constructor
      · show (((s.projects.map _).map Project.id)).Nodup
        rw [ids_of_map_eq _ _ (fun p => by split_ifs <;> rfl)]
        exact hnd
      · intro p' hp'
        exact assignInv_map_status pid ProjectStatus.PENDING_COMPLETION now hnd hinv
          p0 hp0 hid (by rw [hass]; rfl) rfl p' hp'
  | approveCompl u pid now =>
    cases hres : approveCompletion s u pid now with
    | error e =>
      rw [show runOp s (Op.approveCompl u pid now) = s by
        simp [runOp, stateAfter, hres]]
      exact ⟨hnd, hinv⟩
    | ok s' =>
      rw [show runOp s (Op.approveCompl u pid now) = s' by
        simp [runOp, stateAfter, hres]]
      obtain ⟨fid, hchk, rfl⟩ := approveCompletion_ok hres
      obtain ⟨client, p0, fl, hc, hp0, hid, hcid, hst, hass, hf⟩ :=
        approveCompletionChecks_ok hchk
      constructor
      · show (((s.projects.map _).map Project.id)).Nodup
        rw [ids_of_map_eq _ _ (fun p => by split_ifs <;> rfl)]
        exact hnd
      · intro p' hp'
        exact assignInv_map_status pid ProjectStatus.COMPLETED now hnd hinv
          p0 hp0 hid (by rw [hass]; rfl) rfl p' hp'
  | rejectCompl u pid r now =>
    cases hres : rejectCompletion s u pid r now with
    | error e =>
      rw [show runOp s (Op.rejectCompl u pid r now) = s by
        simp [runOp, stateAfter, hres, Except.map]]
      exact ⟨hnd, hinv⟩
    | ok pr =>
      obtain ⟨s', echoed⟩ := pr
      rw [show runOp s (Op.rejectCompl u pid r now) = s' by
        simp [runOp, stateAfter, hres, Except.map]]
      obtain ⟨client, p0, hr, hc, hp0, hid, hcid, hst, hech, rfl⟩ :=
        rejectCompletion_ok hres
      have hsome : p0.assignedTo.isSome = true := by
        rw [hinv p0 hp0, hst]
        rfl
      constructor
      · show (((s.projects.map _).map Project.id)).Nodup
        rw [ids_of_map_eq _ _ (fun p => by split_ifs <;> rfl)]
        exact hnd
      · intro p' hp'
        exact assignInv_map_status pid ProjectStatus.ASSIGNED now hnd hinv
          p0 hp0 hid hsome rfl p' hp'

theorem runOps_preserves (s : GigState) (ops : List Op)
    (hnd : ProjIdsNodup s) (hinv : AssignInv s) :
    ProjIdsNodup (runOps s ops) ∧ AssignInv (runOps s ops) := by
  induction ops generalizing s with
  | nil => exact ⟨hnd, hinv⟩
  | cons op rest ih =>
    have hstep := runOp_preserves s op hnd hinv
    exact ih (runOp s op) hstep.1 hstep.2

/-- C2: starting from any storage state with unique project ids in which the
invariant holds, after every sequence of the exposed operations (project
creation, application approval, direct assignment, completion request,
completion approval, completion rejection) every project's `assignedTo`
is non-null exactly when its status is one of ASSIGNED,
PENDING_COMPLETION, COMPLETED, REJECTED_COMPLETION. -/
theorem assignedTo_iff_lifecycle_status (s : GigState) (ops : List Op)
    (hnd : ProjIdsNodup s) (hinv : AssignInv s) :
    AssignInv (runOps s ops) :=
  (runOps_preserves s ops hnd hinv).2

/-- Witness for C2: a full lifecycle run (approve, request completion,
reject completion, request again, approve completion, post a new
project) starting from `testState`. -/
theorem assignedTo_iff_lifecycle_status_witness :
    ProjIdsNodup testState ∧ AssignInv testState ∧
    AssignInv (runOps testState
      [Op.approveApp "uc1" "p1" "a1" 1, Op.reqCompletion "uf1" "p1" 2,
       Op.rejectCompl "uc1" "p1" "redo" 3, Op.reqCompletion "uf1" "p1" 4,
       Op.approveCompl "uc1" "p1" 5, Op.post "uc1" "New" "p2" 6]) :=
  ⟨by decide, by decide,
   assignedTo_iff_lifecycle_status testState
     [Op.approveApp "uc1" "p1" "a1" 1, Op.reqCompletion "uf1" "p1" 2,
      Op.rejectCompl "uc1" "p1" "redo" 3, Op.reqCompletion "uf1" "p1" 4,
      Op.approveCompl "uc1" "p1" 5, Op.post "uc1" "New" "p2" 6]
     (by decide) (by decide)⟩

/-!
## C10: a warm login-cache entry short-circuits password checking
-/

/-- C10: once a login for an email succeeds, the response data sits in the
cache under ``client:login:email`` (stored with TTL 600 on a fresh
login), and while that entry is present every subsequent login call with
that email returns the same successful cached response no matter which
password is submitted: two runs differing only in the password are
indistinguishable. -/
theorem cached_login_ignores_password
    (check : String → String → Bool) (tok : String → String)
    (cache : Cache) (db : List LoginUser) (email p0 : String)
    (d : LoginData) (c' : Cache)
    (h : login check tok cache db email p0 = (.success d, c')) :
    (∃ e, cacheGet c' ("client:login:" ++ email) = some e ∧ e.value = d ∧
      (cacheGet cache ("client:login:" ++ email) = none → e.ttl = 600)) ∧
    ∀ p1 p2 : String,
      login check tok c' db email p1 = (.success d, c') ∧
      login check tok c' db email p1 = login check tok c' db email p2 := by
  simp only [login] at h
  split at h
  next entry hcg =>
    obtain ⟨hd, hcache⟩ : entry.value = d ∧ cache = c' := by
      simpa using h
    subst hcache
    refine ⟨⟨entry, hcg, hd, fun hnone => by rw [hcg] at hnone; cases hnone⟩, ?_⟩
    intro p1 p2
    constructor
    · simp [login, hcg, hd]
    · simp [login, hcg]
  next hcg =>
    split at h
    · simp at h
    next user hu =>
      split at h
      · simp at h
      next hclient =>
        split at h
        · simp at h
        next hpw =>
          obtain ⟨hd', hc'⟩ : (⟨user.id, tok user.id⟩ : LoginData) = d ∧
              cacheSet cache ("client:login:" ++ email) ⟨user.id, tok user.id⟩ 600
                = c' := by
            simpa using h
          subst hd'
          subst hc'
          have hcg' : cacheGet
              (cacheSet cache ("client:login:" ++ email) ⟨user.id, tok user.id⟩ 600)
              ("client:login:" ++ email) = some ⟨⟨user.id, tok user.id⟩, 600⟩ := by
            simp [cacheGet, cacheSet]
          refine ⟨⟨⟨⟨user.id, tok user.id⟩, 600⟩, hcg', rfl, fun _ => rfl⟩, ?_⟩
          intro p1 p2
          constructor
          · simp [login, hcg']
          · simp [login, hcg']

/-- Witness for C10: after `a@b.c` logs in with the right password, logins
with two different wrong passwords both hit the cache and succeed with
the same cached response. -/
theorem cached_login_ignores_password_witness :
    login checkEq tokF [] loginTestDb "a@b.c" "hash1" =
      (.success ⟨"u1", "tok-u1"⟩, loginTestCache) ∧
    (∃ e, cacheGet loginTestCache ("client:login:" ++ "a@b.c") = some e ∧
      e.value = ⟨"u1", "tok-u1"⟩ ∧
      (cacheGet ([] : Cache) ("client:login:" ++ "a@b.c") = none → e.ttl = 600)) ∧
    (login checkEq tokF loginTestCache loginTestDb "a@b.c" "WRONG" =
        (.success ⟨"u1", "tok-u1"⟩, loginTestCache) ∧
      login checkEq tokF loginTestCache loginTestDb "a@b.c" "WRONG" =
        login checkEq tokF loginTestCache loginTestDb "a@b.c" "otherpass") :=
  ⟨by decide,
   (cached_login_ignores_password checkEq tokF [] loginTestDb "a@b.c" "hash1"
      ⟨"u1", "tok-u1"⟩ loginTestCache (by decide)).1,
   (cached_login_ignores_password checkEq tokF [] loginTestDb "a@b.c" "hash1"
      ⟨"u1", "tok-u1"⟩ loginTestCache (by decide)).2 "WRONG" "otherpass"⟩

end GigUp
